import Mathlib

/-!
Shallow embedding of the measurement-record store, the progress/history
computation, and the authorization gate of `src/main.py` (a chat bot that
tracks per-user body measurements in one JSON file per user), together with
theorems settling the specification claims about that code.

Modelling conventions, fixed once for the whole file:

* JSON documents are `JsonVal`.  Objects are association lists; `json.load`
  produces unique keys, and lookup and in-place update act on the first
  matching key.
* Python runtime exceptions are the `error` side of `Except PyErr`; an
  `Except.error` escaping a modelled function is an uncaught exception
  escaping the corresponding Python function.
* Python floats are modelled as `Rat`; the subtractions performed by the
  code are exact there, as they are on the short decimal inputs the bot
  accepts.
* Timestamps: `datetime.now()` is an epoch-second parameter `now : Nat`.
  The pair `strftime("%Y-%m-%d %H:%M:%S")` / `strptime` is an injective,
  order-preserving textual encoding of second-precision timestamps together
  with its partial inverse; it is modelled by the decimal encoding
  `Nat.repr` / `String.toNat?`, keeping the failure mode (`strptime` raises
  on a string not produced by the format) and the ordering of timestamps.
  `timedelta(days=d)` is `d * 86400` seconds; subtracting it from a
  datetime is integer subtraction, which never truncates.
* The file system is a map from file paths (strings) to `DocContent`.
  A stored file is either absent, unreadable (`open`/`read` raises
  `IOError`), made of bytes that do not decode as UTF-8 (reading raises
  `UnicodeDecodeError`, which the source catches nowhere: its handler
  lists only `json.JSONDecodeError` and `IOError`), decodable text that is
  not valid JSON (`json.load` raises `JSONDecodeError`), or a valid JSON
  document.
* `save_user_data` opens the file with mode `"w"`, which truncates it
  before `json.dump` writes; the environment decides the outcome of a
  write, modelled by `WriteBehavior`: the write succeeds, `open` itself
  fails (file untouched), or the write fails partway, leaving a proper
  prefix of the serialized text, which is never valid JSON (`notJson`).
* Telegram user identifiers (`update.effective_user.id`) are non-negative
  integers, modelled as `Nat`; `f"user_{user_id}.json"` uses the decimal
  representation `Nat.repr`.
-/

namespace BodyStat

/-- JSON values as produced by `json.load` and consumed by `json.dump`. -/
inductive JsonVal where
  | null
  | bool (b : Bool)
  | num (q : Rat)
  | str (s : String)
  | arr (elems : List JsonVal)
  | obj (fields : List (String × JsonVal))

instance : Inhabited JsonVal := ⟨.null⟩

/-- Python exception classes that the modelled code can raise. -/
inductive PyErr where
  | keyError
  | typeError
  | valueError
  | indexError
  | attributeError
  | unicodeDecodeError
  deriving DecidableEq

/-- First binding of key `k` in a parsed JSON object (Python dict lookup). -/
def lookupKey (k : String) : List (String × JsonVal) → Option JsonVal
  | [] => none
  | (k2, v) :: rest => if k2 = k then some v else lookupKey k rest

/-- Replace the value bound to key `k` (models growing the list object a dict
field points to; the key is present whenever the code reaches this point). -/
def setKey (k : String) (v : JsonVal) : List (String × JsonVal) → List (String × JsonVal)
  | [] => []
  | (k2, w) :: rest => if k2 = k then (k2, v) :: rest else (k2, w) :: setKey k v rest

/-- Python subscript `v[k]` with a string key: dict lookup (`KeyError` when the
key is missing), `TypeError` on any non-dict value. -/
def subscriptS : JsonVal → String → Except PyErr JsonVal
  | .obj kvs, k =>
    match lookupKey k kvs with
    | some v => .ok v
    | none => .error .keyError
  | _, _ => .error .typeError

/-- Python truthiness of a JSON value. -/
def truthy : JsonVal → Bool
  | .null => false
  | .bool b => b
  | .num q => decide (q ≠ 0)
  | .str s => !s.data.isEmpty
  | .arr xs => !xs.isEmpty
  | .obj kvs => !kvs.isEmpty

/-- Python `len`, a `TypeError` on unsized values. -/
def pyLen : JsonVal → Except PyErr Nat
  | .arr xs => .ok xs.length
  | .str s => .ok s.data.length
  | .obj kvs => .ok kvs.length
  | _ => .error .typeError

/-- Python iteration `for x in v`: lists yield elements, strings yield
one-character strings, dicts yield their keys; `TypeError` otherwise. -/
def pyIter : JsonVal → Except PyErr (List JsonVal)
  | .arr xs => .ok xs
  | .str s => .ok (s.data.map fun c => .str (String.mk [c]))
  | .obj kvs => .ok (kvs.map fun kv => .str kv.1)
  | _ => .error .typeError

/-- Python subscript `v[i]` with an integer index, including the negative
(from-the-end) convention used by `[-1]` and `[-2]` in the source. -/
def pyGet : JsonVal → Int → Except PyErr JsonVal
  | .arr xs, i =>
    let n : Int := xs.length
    let j : Int := if i < 0 then i + n else i
    if 0 ≤ j ∧ j < n then .ok (xs.getD j.toNat .null) else .error .indexError
  | .str s, i =>
    let n : Int := s.data.length
    let j : Int := if i < 0 then i + n else i
    if 0 ≤ j ∧ j < n then .ok (.str (String.mk [s.data.getD j.toNat 'x'])) else .error .indexError
  | .obj _, _ => .error .keyError
  | _, _ => .error .typeError

/-- Python slice `v[:n]`, as used by `record["date"][:10]`. -/
def pySliceTo : JsonVal → Nat → Except PyErr JsonVal
  | .str s, n => .ok (.str (String.mk (s.data.take n)))
  | .arr xs, n => .ok (.arr (xs.take n))
  | _, _ => .error .typeError

/-- Read field `k` of a record and require a number, as the arithmetic in
`show_progress` and `show_history_period` does (`TypeError` otherwise). -/
def getNum (v : JsonVal) (k : String) : Except PyErr Rat := do
  match ← subscriptS v k with
  | .num q => pure q
  | _ => .error .typeError

/-- Content of one persisted per-user file (see the header comment). -/
inductive DocContent where
  | absent
  | unreadable
  | invalidUtf8
  | notJson
  | json (v : JsonVal)

/-- Outcome of one attempt to write a file, decided by the environment. -/
inductive WriteBehavior where
  | writeOk
  | failOnOpen
  | failDuringWrite
  deriving DecidableEq

/-- The local file system: path to stored content. -/
abbrev FS := String → DocContent

/-- Model of `UserStatsManager.get_user_file_path`:
`os.path.join(DATA_DIR, f"user_{user_id}.json")`. -/
def get_user_file_path (user_id : Nat) : String :=
  "user_data/user_" ++ Nat.repr user_id ++ ".json"

/-- Point update of the file system. -/
def updateFS (fs : FS) (p : String) (d : DocContent) : FS :=
  fun q => if q = p then d else fs q

/-- The dictionary `{"records": []}` the loader falls back to. -/
def emptyHistory : JsonVal := .obj [("records", .arr [])]

/-- Behaviour of `UserStatsManager.load_user_data` on one file content:
missing file and the two caught exception classes (`IOError`,
`JSONDecodeError`) yield `{"records": []}`; a `UnicodeDecodeError` from
reading non-UTF-8 bytes is not caught; any valid JSON value is returned
as parsed. -/
def loadDoc : DocContent → Except PyErr JsonVal
  | .absent => .ok emptyHistory
  | .unreadable => .ok emptyHistory
  | .invalidUtf8 => .error .unicodeDecodeError
  | .notJson => .ok emptyHistory
  | .json v => .ok v

/-- Model of `UserStatsManager.load_user_data`. -/
def load_user_data (fs : FS) (user_id : Nat) : Except PyErr JsonVal :=
  loadDoc (fs (get_user_file_path user_id))

/-- Model of `UserStatsManager.save_user_data`: `open(path, "w")` truncates,
then `json.dump` writes; `IOError` is caught and reported as `False`.  A
failure at `open` leaves the file untouched; a failure during the write
leaves a proper prefix of the serialized document, which is not valid
JSON. -/
def save_user_data (fs : FS) (user_id : Nat) (data : JsonVal) :
    WriteBehavior → FS × Bool
  | .writeOk => (updateFS fs (get_user_file_path user_id) (.json data), true)
  | .failOnOpen => (fs, false)
  | .failDuringWrite => (updateFS fs (get_user_file_path user_id) .notJson, false)

/-- The record dictionary built by `UserStatsManager.add_record`. -/
def newRecord (now : Nat) (weight waist hips chest : Rat) : JsonVal :=
  .obj [("date", .str (Nat.repr now)), ("weight", .num weight),
    ("waist", .num waist), ("hips", .num hips), ("chest", .num chest)]

/-- In-place update of one field of a parsed JSON object. -/
def objSet (v : JsonVal) (k : String) (w : JsonVal) : JsonVal :=
  match v with
  | .obj kvs => .obj (setKey k w kvs)
  | _ => v

/-- Model of `UserStatsManager.add_record`: load, append the stamped record to
`data["records"]` (a `KeyError`/`TypeError` if the subscript fails, an
`AttributeError` if the value has no `append`), then save. -/
def add_record (fs : FS) (user_id : Nat) (now : Nat)
    (weight waist hips chest : Rat) (wb : WriteBehavior) :
    Except PyErr (FS × Bool) := do
  let data ← load_user_data fs user_id
  let recs ← subscriptS data "records"
  match recs with
  | .arr xs =>
    pure (save_user_data fs user_id
      (objSet data "records" (.arr (xs ++ [newRecord now weight waist hips chest]))) wb)
  | _ => .error .attributeError

/-- Model of `UserStatsManager.get_latest_record`. -/
def get_latest_record (fs : FS) (user_id : Nat) : Except PyErr (Option JsonVal) := do
  let data ← load_user_data fs user_id
  let recs ← subscriptS data "records"
  if truthy recs then do
    let r ← pyGet recs (-1)
    pure (some r)
  else
    pure none

/-- Model of `UserStatsManager.get_previous_record`. -/
def get_previous_record (fs : FS) (user_id : Nat) : Except PyErr (Option JsonVal) := do
  let data ← load_user_data fs user_id
  let recs ← subscriptS data "records"
  let n ← pyLen recs
  if n ≥ 2 then do
    let r ← pyGet recs (-2)
    pure (some r)
  else
    pure none

/-- Model of `datetime.strptime(value, "%Y-%m-%d %H:%M:%S")`: `TypeError` on a
non-string argument, `ValueError` on a string the format cannot parse. -/
def strptimeM : JsonVal → Except PyErr Nat
  | .str s =>
    match String.toNat? s with
    | some t => .ok t
    | none => .error .valueError
  | _ => .error .typeError

/-- The filtering loop of `get_records_by_period`, in iteration order. -/
def filterRecords (startDate : Int) : List JsonVal → Except PyErr (List JsonVal)
  | [] => .ok []
  | r :: rest => do
    let d ← subscriptS r "date"
    let t ← strptimeM d
    let tail ← filterRecords startDate rest
    if startDate ≤ (t : Int) then pure (r :: tail) else pure tail

/-- Model of `UserStatsManager.get_records_by_period`: empty-check, then keep
the records whose parsed date is at least `now - timedelta(days=days)`. -/
def get_records_by_period (fs : FS) (user_id : Nat) (days : Int) (now : Nat) :
    Except PyErr (List JsonVal) := do
  let data ← load_user_data fs user_id
  let recs ← subscriptS data "records"
  if truthy recs = false then
    pure []
  else do
    let items ← pyIter recs
    filterRecords ((now : Int) - days * 86400) items

/-- The `records` value computed at the top of `show_history_period`: the
sentinel `days == -1` loads the whole stored sequence unfiltered, any other
period goes through `get_records_by_period`. -/
def show_history_period_records (fs : FS) (user_id : Nat) (days : Int) (now : Nat) :
    Except PyErr JsonVal :=
  if days = -1 then do
    let data ← load_user_data fs user_id
    subscriptS data "records"
  else do
    let rs ← get_records_by_period fs user_id days now
    pure (.arr rs)

/-- Result of `format_change`: a signed-delta rendering, with zero shown as
the distinguished no-change text. -/
inductive Change where
  | inc (v : Rat)
  | dec (v : Rat)
  | noChange
  deriving DecidableEq

/-- Model of the local `format_change` in `show_progress`. -/
def format_change (v : Rat) : Change :=
  if 0 < v then .inc v else if v < 0 then .dec v else .noChange

/-- Field reads performed when one record is rendered (both the current-data
block of `show_progress` and the history line loop read the date, slice it
to ten characters, and format the four measurements). -/
def readRecordView (r : JsonVal) : Except PyErr Unit := do
  let d ← subscriptS r "date"
  let _ ← pySliceTo d 10
  let _ ← subscriptS r "weight"
  let _ ← subscriptS r "waist"
  let _ ← subscriptS r "hips"
  let _ ← subscriptS r "chest"
  pure ()

/-- Sequential rendering of a list of records. -/
def readAll : List JsonVal → Except PyErr Unit
  | [] => pure ()
  | r :: rest => do
    readRecordView r
    readAll rest

/-- Structured content of the history message built by `show_history_period`:
the displayed records, the optional per-field total change over the whole
window, and the optional truncation note (shown count, total count). -/
structure WindowSummary where
  displayed : List JsonVal
  totals : Option (Rat × Rat × Rat × Rat)
  shownOfTotal : Option (Nat × Nat)

/-- Python subscript on the `records` list of `show_history_period`. -/
def pyGetL (xs : List JsonVal) (i : Int) : Except PyErr JsonVal :=
  pyGet (.arr xs) i

/-- Model of the summary portion of `show_history_period` (everything after
the `records` list is in hand): no records gives the empty no-summary
message; otherwise the last ten records are displayed, the total change is
computed from `records[0]` and `records[-1]` of the full window whenever at
least two records exist, and a truncation note appears past ten records. -/
def show_history_summary (records : List JsonVal) :
    Except PyErr (Option WindowSummary) :=
  if records.isEmpty then pure none
  else do
    let display := if records.length > 10 then records.drop (records.length - 10) else records
    let _ ← readAll display
    let totals ←
      if records.length ≥ 2 then do
        let f ← pyGetL records 0
        let l ← pyGetL records (-1)
        let lw ← getNum l "weight"
        let fw ← getNum f "weight"
        let lwa ← getNum l "waist"
        let fwa ← getNum f "waist"
        let lh ← getNum l "hips"
        let fh ← getNum f "hips"
        let lc ← getNum l "chest"
        let fc ← getNum f "chest"
        pure (some (lw - fw, lwa - fwa, lh - fh, lc - fc))
      else
        pure none
    let note := if records.length > 10 then some (10, records.length) else none
    pure (some ⟨display, totals, note⟩)

/-- Outcome of `show_progress`: either the no-records message, or the latest
record together with the optional four formatted changes. -/
inductive ProgressOutcome where
  | noRecords
  | result (latest : JsonVal) (changes : Option (Change × Change × Change × Change))

/-- The change computation of `show_progress` (lines computing the four
differences and formatting them), in evaluation order. -/
def computeChanges (latest previous : JsonVal) :
    Except PyErr (Change × Change × Change × Change) := do
  let lw ← getNum latest "weight"
  let pw ← getNum previous "weight"
  let lwa ← getNum latest "waist"
  let pwa ← getNum previous "waist"
  let lh ← getNum latest "hips"
  let ph ← getNum previous "hips"
  let lc ← getNum latest "chest"
  let pc ← getNum previous "chest"
  pure (format_change (lw - pw), format_change (lwa - pwa),
    format_change (lh - ph), format_change (lc - pc))

/-- Model of `show_progress`: fetch latest and previous, bail out on a falsy
latest, render the current block, and add changes only for a truthy
previous record. -/
def show_progress_model (fs : FS) (user_id : Nat) : Except PyErr ProgressOutcome := do
  let latest ← get_latest_record fs user_id
  let previous ← get_previous_record fs user_id
  match latest with
  | none => pure .noRecords
  | some l =>
    if truthy l = false then
      pure .noRecords
    else do
      let _ ← readRecordView l
      match previous with
      | some p =>
        if truthy p then do
          let cs ← computeChanges l p
          pure (.result l (some cs))
        else
          pure (.result l none)
      | none => pure (.result l none)

/-- The authorization settings imported from `config` (or defaulted). -/
structure AuthConfig where
  OPEN_ACCESS : Bool
  ADMIN_ONLY_MODE : Bool
  ALLOWED_USER_IDS : List Nat
  ALLOWED_USERNAMES : List String

/-- Model of `is_user_authorized`.  The mutable global `ADMIN_USER_ID` is
passed in and returned explicitly; a username is `none` when Telegram
supplies `None`, and the empty string is falsy in the `username and ...`
test. -/
def is_user_authorized (cfg : AuthConfig) (adminUserId : Option Nat)
    (user_id : Nat) (username : Option String) : Bool × Option Nat :=
  if cfg.OPEN_ACCESS then (true, adminUserId)
  else if cfg.ADMIN_ONLY_MODE then
    match adminUserId with
    | none => (true, some user_id)
    | some a => (decide (user_id = a), some a)
  else if cfg.ALLOWED_USER_IDS.contains user_id then (true, adminUserId)
  else
    match username with
    | some u =>
      if u.data.isEmpty then (false, adminUserId)
      else ((cfg.ALLOWED_USERNAMES.map String.toLower).contains u.toLower, adminUserId)
    | none => (false, adminUserId)

/-- A sequence of authorization checks threading the global admin state. -/
def runAuth (cfg : AuthConfig) : Option Nat → List (Nat × Option String) →
    List Bool × Option Nat
  | admin, [] => ([], admin)
  | admin, (uid, uname) :: rest =>
    let r := is_user_authorized cfg admin uid uname
    let t := runAuth cfg r.2 rest
    (r.1 :: t.1, t.2)

/-- Does this option hold a JSON number? -/
def isNumField : Option JsonVal → Bool
  | some (.num _) => true
  | _ => false

/-- A record whose `date` field is a string the date format can parse back.
This is all `get_records_by_period` needs of one record. -/
def wfRecDate (r : JsonVal) : Bool :=
  match r with
  | .obj kvs =>
    match lookupKey "date" kvs with
    | some (.str s) => (String.toNat? s).isSome
    | _ => false
  | _ => false

/-- Does record `r` carry a numeric field `k`? -/
def hasNum (r : JsonVal) (k : String) : Bool :=
  match r with
  | .obj kvs => isNumField (lookupKey k kvs)
  | _ => false

/-- A fully well-formed measurement record: parseable date plus the four
numeric measurement fields. -/
def wfFullRec (r : JsonVal) : Bool :=
  wfRecDate r && hasNum r "weight" && hasNum r "waist" && hasNum r "hips" &&
    hasNum r "chest"

/-- Well-formedness of one stored file with respect to a per-record
predicate: the file is absent, unreadable, or non-JSON text (the loader
falls back to an empty history), or it parses to an object whose
`records` field is a list of records satisfying `p`. -/
def wfDocWith (p : JsonVal → Bool) : DocContent → Bool
  | .absent => true
  | .unreadable => true
  | .invalidUtf8 => false
  | .notJson => true
  | .json (.obj kvs) =>
    match lookupKey "records" kvs with
    | some (.arr rs) => rs.all p
    | _ => false
  | .json _ => false

/-- The effective stored history of one file content. -/
def storedRecords : DocContent → List JsonVal
  | .json (.obj kvs) =>
    match lookupKey "records" kvs with
    | some (.arr rs) => rs
    | _ => []
  | _ => []

/-- The dictionary `load_user_data` hands back for one file content (its
fallback on the soft-failure contents). -/
def docVal : DocContent → JsonVal
  | .json v => v
  | _ => emptyHistory

/-- The document written back by a successful `add_record` on content `d`. -/
def appendedDoc (d : DocContent) (r : JsonVal) : JsonVal :=
  objSet (docVal d) "records" (.arr (storedRecords d ++ [r]))

/-- The parsed timestamp of a well-formed record (0 on malformed ones). -/
def recDate (r : JsonVal) : Nat :=
  match r with
  | .obj kvs =>
    match lookupKey "date" kvs with
    | some (.str s) => (String.toNat? s).getD 0
    | _ => 0
  | _ => 0

/-- The numeric field `k` of a well-formed record (0 on malformed ones). -/
def fieldQ (r : JsonVal) (k : String) : Rat :=
  match r with
  | .obj kvs =>
    match lookupKey k kvs with
    | some (.num q) => q
    | _ => 0
  | _ => 0

/-- Is this computation free of an uncaught exception? -/
def isOkE {α : Type} : Except PyErr α → Bool
  | .ok _ => true
  | .error _ => false

/-- Structural decimal digit list of a natural number, used to reason about
`Nat.repr`. -/
def decDigits (n : Nat) : List Char :=
  if n < 10 then [Nat.digitChar n]
  else decDigits (n / 10) ++ [Nat.digitChar (n % 10)]
decreasing_by exact Nat.div_lt_self (by omega) (by omega)

/-! Lemmas about the decimal representation: `Nat.repr` equals the structural
digit list, `String.toNat?` parses it back, and it is injective. -/

theorem digitChar_isDigit (k : Nat) (h : k < 10) : (Nat.digitChar k).isDigit = true := by
  interval_cases k <;> decide

theorem digitChar_val (k : Nat) (h : k < 10) : (Nat.digitChar k).toNat - 48 = k := by
  interval_cases k <;> decide

theorem toDigitsCore_eq_decDigits (fuel : Nat) :
    ∀ (n : Nat) (ds : List Char), n < fuel →
      Nat.toDigitsCore 10 fuel n ds = decDigits n ++ ds := by
  induction fuel with
  | zero => intro n ds h; omega
  | succ fuel ih =>
    intro n ds h
    rw [Nat.toDigitsCore]
    by_cases h10 : n < 10
    · have hdiv : n / 10 = 0 := by omega
      rw [decDigits]
      simp [hdiv, h10, Nat.mod_eq_of_lt h10]
    · have hdiv : ¬ n / 10 = 0 := by omega
      rw [decDigits]
      simp only [if_neg hdiv, if_neg h10]
      rw [ih (n / 10) _ (by omega)]
      simp

theorem repr_eq_decDigits (n : Nat) : Nat.repr n = (decDigits n).asString := by
  rw [Nat.repr, Nat.toDigits, toDigitsCore_eq_decDigits (n + 1) n [] (by omega),
    List.append_nil]

theorem decDigits_ne_nil (n : Nat) : decDigits n ≠ [] := by
  rw [decDigits]
  split <;> simp

theorem decDigits_all_isDigit (n : Nat) : ∀ c ∈ decDigits n, c.isDigit = true := by
  induction n using Nat.strong_induction_on with
  | _ n ih =>
    rw [decDigits]
    split
    · intro c hc
      rw [List.mem_singleton] at hc
      subst hc
      exact digitChar_isDigit n (by omega)
    · intro c hc
      rw [List.mem_append] at hc
      rcases hc with hc | hc
      · exact ih (n / 10) (by omega) c hc
      · rw [List.mem_singleton] at hc
        subst hc
        exact digitChar_isDigit (n % 10) (by omega)

theorem foldl_decDigits (n : Nat) :
    ∀ a : Nat,
      (decDigits n).foldl (fun m c => m * 10 + (c.toNat - Char.toNat '0')) a
        = a * 10 ^ (decDigits n).length + n := by
  induction n using Nat.strong_induction_on with
  | _ n ih =>
    intro a
    by_cases h10 : n < 10
    · have e : decDigits n = [Nat.digitChar n] := by
        rw [decDigits]
        simp [h10]
      rw [e]
      simp only [List.foldl, List.length_singleton, pow_one]
      have hv : (Nat.digitChar n).toNat - Char.toNat '0' = n := digitChar_val n h10
      omega
    · have e : decDigits n = decDigits (n / 10) ++ [Nat.digitChar (n % 10)] := by
        rw [decDigits]
        simp [h10]
      rw [e, List.foldl_append, ih (n / 10) (by omega) a]
      simp only [List.foldl, List.length_append, List.length_singleton, pow_succ]
      have hv : (Nat.digitChar (n % 10)).toNat - Char.toNat '0' = n % 10 :=
        digitChar_val (n % 10) (by omega)
      have hm : a * (10 ^ (decDigits (n / 10)).length * 10)
          = a * 10 ^ (decDigits (n / 10)).length * 10 := by ring
      rw [hm]
      generalize a * 10 ^ (decDigits (n / 10)).length = b
      omega

theorem toNat?_repr (n : Nat) : String.toNat? (Nat.repr n) = some n := by
  rw [repr_eq_decDigits]
  have hne : (decDigits n).asString ≠ "" := by
    intro hs
    exact decDigits_ne_nil n (by simpa [List.asString] using congrArg String.data hs)
  have hempty : ((decDigits n).asString).isEmpty = false := by
    cases hE : ((decDigits n).asString).isEmpty with
    | false => rfl
    | true => exact absurd ((String.isEmpty_iff _).mp hE) hne
  have hall : ((decDigits n).asString).all (fun c => c.isDigit) = true := by
    rw [String.all_eq]
    exact List.all_eq_true.mpr (decDigits_all_isDigit n)
  have hnat : ((decDigits n).asString).isNat = true := by
    simp [String.isNat, hempty, hall]
  rw [String.toNat?, if_pos hnat, String.foldl_eq]
  have := foldl_decDigits n 0
  simp only [Nat.zero_mul, Nat.zero_add] at this
  simpa [List.asString] using this

theorem repr_injective (m n : Nat) (h : Nat.repr m = Nat.repr n) : m = n := by
  have hm := toNat?_repr m
  rw [h, toNat?_repr n] at hm
  exact (Option.some.inj hm).symm

theorem get_user_file_path_injective (a b : Nat)
    (h : get_user_file_path a = get_user_file_path b) : a = b := by
  have hd := congrArg String.data h
  simp only [get_user_file_path, String.data_append] at hd
  exact repr_injective a b (String.ext (List.append_cancel_left (List.append_cancel_right hd)))

theorem get_user_file_path_ne (a b : Nat) (h : a ≠ b) :
    get_user_file_path a ≠ get_user_file_path b :=
  fun he => h (get_user_file_path_injective a b he)

/-! Lemmas about the store on well-formed file contents. -/

theorem eBind_ok {α β : Type} (a : α) (f : α → Except PyErr β) :
    (Except.ok a : Except PyErr α) >>= f = f a := rfl

theorem eBind_error {α β : Type} (e : PyErr) (f : α → Except PyErr β) :
    (Except.error e : Except PyErr α) >>= f = Except.error e := rfl

theorem ePure {α : Type} (a : α) : (pure a : Except PyErr α) = Except.ok a := rfl

theorem pySliceTo_str (s : String) (n : Nat) :
    pySliceTo (.str s) n = .ok (.str (String.mk (s.data.take n))) := rfl

theorem pyLen_arr (xs : List JsonVal) : pyLen (.arr xs) = .ok xs.length := rfl

theorem pyIter_arr (xs : List JsonVal) : pyIter (.arr xs) = .ok xs := rfl

theorem wfDocWith_elim {p : JsonVal → Bool} {d : DocContent}
    (h : wfDocWith p d = true) :
    loadDoc d = .ok (docVal d)
    ∧ subscriptS (docVal d) "records" = .ok (.arr (storedRecords d))
    ∧ ∀ r ∈ storedRecords d, p r = true := by
  cases d with
  | absent => exact ⟨rfl, rfl, by simp [storedRecords]⟩
  | unreadable => exact ⟨rfl, rfl, by simp [storedRecords]⟩
  | notJson => exact ⟨rfl, rfl, by simp [storedRecords]⟩
  | invalidUtf8 => simp [wfDocWith] at h
  | json v =>
    cases v with
    | obj kvs =>
      simp only [wfDocWith] at h
      cases hk : lookupKey "records" kvs with
      | none => rw [hk] at h; simp at h
      | some w =>
        cases w with
        | arr rs =>
          rw [hk] at h
          have hall : rs.all p = true := h
          refine ⟨rfl, ?_, ?_⟩
          · simp [docVal, subscriptS, storedRecords, hk]
          · intro r hr
            rw [storedRecords, hk] at hr
            exact List.all_eq_true.mp hall r hr
        | null => rw [hk] at h; simp at h
        | bool b => rw [hk] at h; simp at h
        | num q => rw [hk] at h; simp at h
        | str s => rw [hk] at h; simp at h
        | obj kvs2 => rw [hk] at h; simp at h
    | null => simp [wfDocWith] at h
    | bool b => simp [wfDocWith] at h
    | num q => simp [wfDocWith] at h
    | str s => simp [wfDocWith] at h
    | arr xs => simp [wfDocWith] at h

theorem getD_concat (xs : List JsonVal) (a : JsonVal) :
    (xs ++ [a]).getD xs.length JsonVal.null = a := by
  induction xs with
  | nil => rfl
  | cons x xs ih =>
    simp only [List.cons_append, List.length_cons, List.getD_cons_succ]
    exact ih

theorem pyGet_neg (xs : List JsonVal) (k : Nat) (h1 : 1 ≤ k) (h2 : k ≤ xs.length) :
    pyGet (.arr xs) (-(k : Int)) = .ok (xs.getD (xs.length - k) JsonVal.null) := by
  simp only [pyGet]
  have hneg : -(k : Int) < 0 := by omega
  simp only [if_pos hneg]
  rw [if_pos (⟨by omega, by omega⟩ :
    0 ≤ -(k : Int) + (xs.length : Int) ∧ -(k : Int) + (xs.length : Int) < (xs.length : Int))]
  have ht : (-(k : Int) + (xs.length : Int)).toNat = xs.length - k := by omega
  rw [ht]

theorem pyGet_zero (xs : List JsonVal) (h : xs ≠ []) :
    pyGet (.arr xs) 0 = .ok (xs.getD 0 JsonVal.null) := by
  have hlen : 0 < xs.length := List.length_pos.mpr h
  simp only [pyGet]
  have hneg : ¬((0 : Int) < 0) := by omega
  simp only [if_neg hneg]
  rw [if_pos (⟨by omega, by omega⟩ :
    (0 : Int) ≤ 0 ∧ (0 : Int) < (xs.length : Int))]
  rfl

theorem truthy_arr_nonempty (xs : List JsonVal) (h : xs ≠ []) :
    truthy (.arr xs) = true := by
  simp [truthy, h]

theorem lookupKey_setKey (k : String) (v : JsonVal) (kvs : List (String × JsonVal))
    (h : (lookupKey k kvs).isSome = true) :
    lookupKey k (setKey k v kvs) = some v := by
  induction kvs with
  | nil => simp [lookupKey] at h
  | cons kv rest ih =>
    obtain ⟨k2, w⟩ := kv
    by_cases hk : k2 = k
    · simp [lookupKey, setKey, hk]
    · simp only [lookupKey, setKey, if_neg hk] at h ⊢
      exact ih h

theorem subscriptS_objSet (u : JsonVal) (k : String) (v w : JsonVal)
    (h : subscriptS u k = .ok w) :
    subscriptS (objSet u k v) k = .ok v := by
  cases u with
  | obj kvs =>
    simp only [subscriptS] at h
    cases hk : lookupKey k kvs with
    | none => rw [hk] at h; simp at h
    | some w2 =>
      have hs : (lookupKey k kvs).isSome = true := by rw [hk]; rfl
      simp [objSet, subscriptS, lookupKey_setKey k v kvs hs]
  | null => simp [subscriptS] at h
  | bool b => simp [subscriptS] at h
  | num q => simp [subscriptS] at h
  | str s => simp [subscriptS] at h
  | arr xs => simp [subscriptS] at h

theorem updateFS_same (fs : FS) (p : String) (d : DocContent) :
    updateFS fs p d p = d := by
  simp [updateFS]

theorem updateFS_other (fs : FS) (p q : String) (d : DocContent) (h : q ≠ p) :
    updateFS fs p d q = fs q := by
  simp [updateFS, h]

theorem add_record_eq (fs : FS) (uid now : Nat) (w x y z : Rat) (wb : WriteBehavior)
    {p : JsonVal → Bool} (h : wfDocWith p (fs (get_user_file_path uid)) = true) :
    add_record fs uid now w x y z wb
      = .ok (save_user_data fs uid
          (appendedDoc (fs (get_user_file_path uid)) (newRecord now w x y z)) wb) := by
  obtain ⟨h1, h2, _⟩ := wfDocWith_elim h
  unfold add_record load_user_data
  rw [h1, eBind_ok, h2, eBind_ok]
  rfl

theorem storedRecords_appendedDoc {p : JsonVal → Bool} {d : DocContent}
    (h : wfDocWith p d = true) (r : JsonVal) :
    storedRecords (.json (appendedDoc d r)) = storedRecords d ++ [r] := by
  obtain ⟨_, h2, _⟩ := wfDocWith_elim h
  cases hv : docVal d with
  | obj kvs =>
    rw [hv] at h2
    simp only [subscriptS] at h2
    have hs : (lookupKey "records" kvs).isSome = true := by
      cases hk : lookupKey "records" kvs with
      | none => rw [hk] at h2; simp at h2
      | some w2 => rfl
    have hset := lookupKey_setKey "records" (JsonVal.arr (storedRecords d ++ [r])) kvs hs
    have he : appendedDoc d r
        = .obj (setKey "records" (JsonVal.arr (storedRecords d ++ [r])) kvs) := by
      unfold appendedDoc
      rw [hv]
      rfl
    rw [he]
    generalize storedRecords d = rs0 at hset ⊢
    simp [storedRecords, hset]
  | null => rw [hv] at h2; simp [subscriptS] at h2
  | bool b => rw [hv] at h2; simp [subscriptS] at h2
  | num q => rw [hv] at h2; simp [subscriptS] at h2
  | str s => rw [hv] at h2; simp [subscriptS] at h2
  | arr xs => rw [hv] at h2; simp [subscriptS] at h2

theorem subscriptS_appendedDoc {p : JsonVal → Bool} {d : DocContent}
    (h : wfDocWith p d = true) (r : JsonVal) :
    subscriptS (appendedDoc d r) "records" = .ok (.arr (storedRecords d ++ [r])) := by
  obtain ⟨_, h2, _⟩ := wfDocWith_elim h
  have := subscriptS_objSet (docVal d) "records" (.arr (storedRecords d ++ [r])) _ h2
  exact this

/-! Lemmas about well-formed records and the computations over them. -/

theorem wfRecDate_elim {r : JsonVal} (h : wfRecDate r = true) :
    ∃ s, subscriptS r "date" = .ok (.str s) ∧ String.toNat? s = some (recDate r) := by
  cases r with
  | obj kvs =>
    simp only [wfRecDate] at h
    cases hk : lookupKey "date" kvs with
    | none => rw [hk] at h; simp at h
    | some w =>
      cases w with
      | str s =>
        rw [hk] at h
        have hsome : (String.toNat? s).isSome = true := h
        cases ht : String.toNat? s with
        | none => rw [ht] at hsome; simp at hsome
        | some t =>
          refine ⟨s, by simp [subscriptS, hk], ?_⟩
          simp [recDate, hk, ht]
      | null => rw [hk] at h; simp at h
      | bool b => rw [hk] at h; simp at h
      | num q => rw [hk] at h; simp at h
      | arr xs => rw [hk] at h; simp at h
      | obj kvs2 => rw [hk] at h; simp at h
  | null => simp [wfRecDate] at h
  | bool b => simp [wfRecDate] at h
  | num q => simp [wfRecDate] at h
  | str s => simp [wfRecDate] at h
  | arr xs => simp [wfRecDate] at h

theorem hasNum_subscript {r : JsonVal} {k : String} (h : hasNum r k = true) :
    subscriptS r k = .ok (.num (fieldQ r k)) := by
  cases r with
  | obj kvs =>
    simp only [hasNum, isNumField] at h
    cases hk : lookupKey k kvs with
    | none => rw [hk] at h; simp at h
    | some w =>
      cases w with
      | num q => simp [subscriptS, fieldQ, hk]
      | null => rw [hk] at h; simp at h
      | bool b => rw [hk] at h; simp at h
      | str s => rw [hk] at h; simp at h
      | arr xs => rw [hk] at h; simp at h
      | obj kvs2 => rw [hk] at h; simp at h
  | null => simp [hasNum] at h
  | bool b => simp [hasNum] at h
  | num q => simp [hasNum] at h
  | str s => simp [hasNum] at h
  | arr xs => simp [hasNum] at h

theorem getNum_eq {r : JsonVal} {k : String} (h : hasNum r k = true) :
    getNum r k = .ok (fieldQ r k) := by
  unfold getNum
  rw [hasNum_subscript h, eBind_ok]
  rfl

theorem wfFullRec_parts {r : JsonVal} (h : wfFullRec r = true) :
    wfRecDate r = true ∧ hasNum r "weight" = true ∧ hasNum r "waist" = true
    ∧ hasNum r "hips" = true ∧ hasNum r "chest" = true := by
  simp only [wfFullRec, Bool.and_eq_true] at h
  exact ⟨h.1.1.1.1, h.1.1.1.2, h.1.1.2, h.1.2, h.2⟩

theorem wfFullRec_truthy {r : JsonVal} (h : wfFullRec r = true) : truthy r = true := by
  obtain ⟨hd, _, _, _, _⟩ := wfFullRec_parts h
  cases r with
  | obj kvs =>
    cases kvs with
    | nil => simp [wfRecDate, lookupKey] at hd
    | cons kv rest => simp [truthy]
  | null => simp [wfRecDate] at hd
  | bool b => simp [wfRecDate] at hd
  | num q => simp [wfRecDate] at hd
  | str s => simp [wfRecDate] at hd
  | arr xs => simp [wfRecDate] at hd

theorem readRecordView_ok {r : JsonVal} (h : wfFullRec r = true) :
    readRecordView r = .ok () := by
  obtain ⟨hd, hw, hwa, hh, hc⟩ := wfFullRec_parts h
  obtain ⟨s, hsub, _⟩ := wfRecDate_elim hd
  unfold readRecordView
  rw [hsub, eBind_ok, pySliceTo_str, eBind_ok, hasNum_subscript hw, eBind_ok,
    hasNum_subscript hwa, eBind_ok, hasNum_subscript hh, eBind_ok,
    hasNum_subscript hc, eBind_ok]
  rfl

theorem readAll_ok (l : List JsonVal) (h : ∀ r ∈ l, wfFullRec r = true) :
    readAll l = .ok () := by
  induction l with
  | nil => rfl
  | cons r rest ih =>
    unfold readAll
    rw [readRecordView_ok (h r (by simp)), eBind_ok]
    exact ih fun r2 hr => h r2 (List.mem_cons_of_mem r hr)

theorem computeChanges_eq {l p2 : JsonVal} (hl : wfFullRec l = true)
    (hp : wfFullRec p2 = true) :
    computeChanges l p2
      = .ok (format_change (fieldQ l "weight" - fieldQ p2 "weight"),
          format_change (fieldQ l "waist" - fieldQ p2 "waist"),
          format_change (fieldQ l "hips" - fieldQ p2 "hips"),
          format_change (fieldQ l "chest" - fieldQ p2 "chest")) := by
  obtain ⟨_, hw, hwa, hh, hc⟩ := wfFullRec_parts hl
  obtain ⟨_, pw, pwa, ph, pc⟩ := wfFullRec_parts hp
  unfold computeChanges
  rw [getNum_eq hw, eBind_ok, getNum_eq pw, eBind_ok, getNum_eq hwa, eBind_ok,
    getNum_eq pwa, eBind_ok, getNum_eq hh, eBind_ok, getNum_eq ph, eBind_ok,
    getNum_eq hc, eBind_ok, getNum_eq pc, eBind_ok]
  rfl

theorem filterRecords_eq (startDate : Int) (rs : List JsonVal)
    (h : ∀ r ∈ rs, wfRecDate r = true) :
    filterRecords startDate rs
      = .ok (rs.filter fun r => decide (startDate ≤ (recDate r : Int))) := by
  induction rs with
  | nil => rfl
  | cons r rest ih =>
    obtain ⟨s, hsub, hparse⟩ := wfRecDate_elim (h r (by simp))
    unfold filterRecords
    rw [hsub, eBind_ok]
    show (strptimeM (.str s) >>= _) = _
    simp only [strptimeM, hparse]
    rw [eBind_ok, ih fun r2 hr => h r2 (List.mem_cons_of_mem r hr), eBind_ok]
    by_cases hle : startDate ≤ (recDate r : Int)
    · simp [hle, List.filter_cons, ePure]
    · simp [hle, List.filter_cons, ePure]

theorem getLast?_eq_getD (xs : List JsonVal) (h : xs ≠ []) :
    xs.getLast? = some (xs.getD (xs.length - 1) JsonVal.null) := by
  induction xs with
  | nil => cases h rfl
  | cons x xs ih =>
    cases xs with
    | nil => rfl
    | cons y ys =>
      rw [List.getLast?_cons_cons, ih (by simp)]
      simp

theorem get_latest_record_eq (fs : FS) (uid : Nat) {p : JsonVal → Bool}
    (h : wfDocWith p (fs (get_user_file_path uid)) = true) :
    get_latest_record fs uid
      = .ok ((storedRecords (fs (get_user_file_path uid))).getLast?) := by
  obtain ⟨h1, h2, _⟩ := wfDocWith_elim h
  unfold get_latest_record load_user_data
  rw [h1, eBind_ok, h2, eBind_ok]
  cases hrs : storedRecords (fs (get_user_file_path uid)) with
  | nil => rfl
  | cons r rest =>
    rw [if_pos (truthy_arr_nonempty _ (by simp))]
    have hneg := pyGet_neg (r :: rest) 1 (by omega) (by simp)
    rw [(by norm_num : -(1 : Int) = -((1 : Nat) : Int)), hneg, eBind_ok,
      getLast?_eq_getD (r :: rest) (by simp)]
    rfl

theorem get_previous_record_eq (fs : FS) (uid : Nat) {p : JsonVal → Bool}
    (h : wfDocWith p (fs (get_user_file_path uid)) = true) :
    get_previous_record fs uid
      = .ok (if 2 ≤ (storedRecords (fs (get_user_file_path uid))).length
          then some ((storedRecords (fs (get_user_file_path uid))).getD
            ((storedRecords (fs (get_user_file_path uid))).length - 2) JsonVal.null)
          else none) := by
  obtain ⟨h1, h2, _⟩ := wfDocWith_elim h
  unfold get_previous_record load_user_data
  rw [h1, eBind_ok, h2, eBind_ok, pyLen_arr, eBind_ok]
  simp only [ge_iff_le]
  by_cases hlen : 2 ≤ (storedRecords (fs (get_user_file_path uid))).length
  · rw [if_pos hlen, if_pos hlen]
    have hneg := pyGet_neg (storedRecords (fs (get_user_file_path uid))) 2 (by omega)
      (by omega)
    rw [(by norm_num : -(2 : Int) = -((2 : Nat) : Int)), hneg, eBind_ok]
    rfl
  · rw [if_neg hlen, if_neg hlen]
    rfl

theorem get_records_by_period_eq (fs : FS) (uid : Nat) (days : Int) (now : Nat)
    (h : wfDocWith wfRecDate (fs (get_user_file_path uid)) = true) :
    get_records_by_period fs uid days now
      = .ok ((storedRecords (fs (get_user_file_path uid))).filter fun r =>
          decide ((now : Int) - days * 86400 ≤ (recDate r : Int))) := by
  obtain ⟨h1, h2, hp⟩ := wfDocWith_elim h
  unfold get_records_by_period load_user_data
  rw [h1, eBind_ok, h2, eBind_ok]
  cases hrs : storedRecords (fs (get_user_file_path uid)) with
  | nil => rfl
  | cons r rest =>
    rw [truthy_arr_nonempty _ (by simp)]
    simp only [Bool.true_eq_false, if_false]
    rw [pyIter_arr, eBind_ok]
    rw [hrs] at hp
    exact filterRecords_eq _ _ hp

theorem loadDoc_json (v : JsonVal) : loadDoc (.json v) = .ok v := rfl

theorem wfFullRec_newRecord (now : Nat) (w x y z : Rat) :
    wfFullRec (newRecord now w x y z) = true := by
  simp [wfFullRec, newRecord, wfRecDate, hasNum, isNumField, lookupKey, toNat?_repr]

theorem getD_mem (l : List JsonVal) (n : Nat) (h : n < l.length) :
    l.getD n JsonVal.null ∈ l := by
  induction l generalizing n with
  | nil => simp at h
  | cons x xs ih =>
    cases n with
    | zero => simp
    | succ m =>
      simp only [List.getD_cons_succ]
      exact List.mem_cons_of_mem x (ih m (by simpa using h))

theorem show_history_summary_big (rs : List JsonVal) (hlen : 10 < rs.length)
    (hwf : ∀ r ∈ rs, wfFullRec r = true) :
    show_history_summary rs
      = .ok (some ⟨rs.drop (rs.length - 10),
          some (fieldQ (rs.getD (rs.length - 1) JsonVal.null) "weight"
                  - fieldQ (rs.getD 0 JsonVal.null) "weight",
                fieldQ (rs.getD (rs.length - 1) JsonVal.null) "waist"
                  - fieldQ (rs.getD 0 JsonVal.null) "waist",
                fieldQ (rs.getD (rs.length - 1) JsonVal.null) "hips"
                  - fieldQ (rs.getD 0 JsonVal.null) "hips",
                fieldQ (rs.getD (rs.length - 1) JsonVal.null) "chest"
                  - fieldQ (rs.getD 0 JsonVal.null) "chest"),
          some (10, rs.length)⟩) := by
  have hne : rs ≠ [] := by
    intro h0
    rw [h0] at hlen
    simp at hlen
  have hfwf : wfFullRec (rs.getD 0 JsonVal.null) = true :=
    hwf _ (getD_mem rs 0 (by omega))
  have hlwf : wfFullRec (rs.getD (rs.length - 1) JsonVal.null) = true :=
    hwf _ (getD_mem rs (rs.length - 1) (by omega))
  obtain ⟨_, fw, fwa, fh, fc⟩ := wfFullRec_parts hfwf
  obtain ⟨_, lw, lwa, lh, lc⟩ := wfFullRec_parts hlwf
  unfold show_history_summary
  rw [if_neg (by simp [hne])]
  simp only [gt_iff_lt, ge_iff_le]
  rw [if_pos hlen, if_pos hlen]
  rw [readAll_ok _ fun r hr => hwf r (List.drop_subset _ rs hr), eBind_ok]
  rw [if_pos (by omega : 2 ≤ rs.length)]
  unfold pyGetL
  rw [pyGet_zero rs hne, eBind_ok,
    (by norm_num : -(1 : Int) = -((1 : Nat) : Int)),
    pyGet_neg rs 1 (by omega) (by omega), eBind_ok,
    getNum_eq lw, eBind_ok, getNum_eq fw, eBind_ok,
    getNum_eq lwa, eBind_ok, getNum_eq fwa, eBind_ok,
    getNum_eq lh, eBind_ok, getNum_eq fh, eBind_ok,
    getNum_eq lc, eBind_ok, getNum_eq fc, eBind_ok,
    ePure, eBind_ok]
  rfl

theorem show_history_summary_one (r : JsonVal) (h : wfFullRec r = true) :
    show_history_summary [r] = .ok (some ⟨[r], none, none⟩) := by
  unfold show_history_summary
  rw [if_neg (by simp)]
  simp only [List.length_singleton, gt_iff_lt, ge_iff_le]
  have h10 : ¬(10 < 1) := by omega
  have h2 : ¬(2 ≤ 1) := by omega
  rw [if_neg h10, if_neg h10, if_neg h2]
  rw [readAll_ok [r] (by
    intro r2 hr
    rw [List.mem_singleton] at hr
    rw [hr]
    exact h), eBind_ok, ePure, eBind_ok]
  rfl

/-! Claim theorems. -/

/-- C1 counterexample: saving is not atomic.  With a prior document on disk
and a write that fails after `open(path, "w")` has truncated the file,
`save_user_data` returns failure, but the previously persisted contents are
gone: the file now holds a proper prefix of the new serialization instead
of the old document. -/
theorem c1_counterexample :
    (save_user_data (fun _ => DocContent.json emptyHistory) 1 emptyHistory
        .failDuringWrite).2 = false
    ∧ (save_user_data (fun _ => DocContent.json emptyHistory) 1 emptyHistory
        .failDuringWrite).1 (get_user_file_path 1)
      ≠ (fun _ => DocContent.json emptyHistory) (get_user_file_path 1) :=
  ⟨rfl, fun hcontra =>
    DocContent.noConfusion
      ((updateFS_same (fun _ => DocContent.json emptyHistory) (get_user_file_path 1)
        DocContent.notJson).symm.trans hcontra)⟩

/-- C1 (amended): for every user id and document, `save_user_data` overwrites
the prior contents of the user file with the full new document and returns
`true` on success, and returns `false` on an I/O failure; but the write is
not atomic: a failure at `open` leaves the prior contents intact, while a
failure during the write leaves the file truncated to a non-JSON prefix. -/
theorem c1_save_behavior (fs : FS) (uid : Nat) (data : JsonVal) :
    save_user_data fs uid data .writeOk
        = (updateFS fs (get_user_file_path uid) (.json data), true)
    ∧ (save_user_data fs uid data .writeOk).1 (get_user_file_path uid) = .json data
    ∧ save_user_data fs uid data .failOnOpen = (fs, false)
    ∧ (save_user_data fs uid data .failDuringWrite).2 = false
    ∧ (save_user_data fs uid data .failDuringWrite).1 (get_user_file_path uid)
        = .notJson :=
  ⟨rfl, updateFS_same fs (get_user_file_path uid) (.json data), rfl, rfl,
    updateFS_same fs (get_user_file_path uid) DocContent.notJson⟩

/-- C2 counterexample: a persisted document that is valid JSON of the wrong
shape (here the object `{}`) makes `get_latest_record` raise an uncaught
`KeyError` at `data["records"]`, escaping the store boundary instead of
resolving to a defined return value. -/
theorem c2_counterexample :
    get_latest_record (fun _ => DocContent.json (JsonVal.obj [])) 1
      = .error .keyError := rfl

/-- C2 (amended): the store operations raise no uncaught error provided the
persisted document is absent, unreadable, non-JSON text, or a JSON object
carrying a `records` list whose records each hold a parseable date string;
outside that class (wrong-shape JSON, unparseable record dates, non-UTF-8
bytes) errors escape, as the counterexample shows. -/
theorem c2_store_no_uncaught_on_wf (fs : FS) (uid : Nat) (days : Int) (now : Nat)
    (w x y z : Rat) (wb : WriteBehavior)
    (h : wfDocWith wfRecDate (fs (get_user_file_path uid)) = true) :
    isOkE (load_user_data fs uid) = true
    ∧ isOkE (get_latest_record fs uid) = true
    ∧ isOkE (get_previous_record fs uid) = true
    ∧ isOkE (get_records_by_period fs uid days now) = true
    ∧ isOkE (add_record fs uid now w x y z wb) = true := by
  obtain ⟨h1, _, _⟩ := wfDocWith_elim h
  refine ⟨?_, ?_, ?_, ?_, ?_⟩
  · unfold load_user_data
    rw [h1]
    rfl
  · rw [get_latest_record_eq fs uid h]
    rfl
  · rw [get_previous_record_eq fs uid h]
    rfl
  · rw [get_records_by_period_eq fs uid days now h]
    rfl
  · rw [add_record_eq fs uid now w x y z wb h]
    rfl

/-- C2 witness: the amended statement at a concrete empty store. -/
theorem c2_witness :
    isOkE (load_user_data (fun _ => DocContent.absent) 1) = true
    ∧ isOkE (get_latest_record (fun _ => DocContent.absent) 1) = true
    ∧ isOkE (get_previous_record (fun _ => DocContent.absent) 1) = true
    ∧ isOkE (get_records_by_period (fun _ => DocContent.absent) 1 7 5) = true
    ∧ isOkE (add_record (fun _ => DocContent.absent) 1 5 (70.5 : Rat) 80 95 90
        .writeOk) = true :=
  c2_store_no_uncaught_on_wf (fun _ => DocContent.absent) 1 7 5 (70.5 : Rat) 80 95 90
    .writeOk rfl

/-- C3: for valid measurement inputs and any well-formed existing history,
appending a record and then asking for the latest record returns exactly the
appended record (so each of its four measurement fields reads back as the
appended value), provided the save succeeded and no other write intervened. -/
theorem c3_append_then_latest (fs : FS) (uid now : Nat) (w x y z : Rat)
    (hdoc : wfDocWith wfRecDate (fs (get_user_file_path uid)) = true)
    (_hw : 30 ≤ w ∧ w ≤ 300) (_hx : 40 ≤ x ∧ x ≤ 200)
    (_hy : 50 ≤ y ∧ y ≤ 200) (_hz : 50 ≤ z ∧ z ≤ 200) :
    ∃ fs2 : FS,
      add_record fs uid now w x y z .writeOk = .ok (fs2, true)
      ∧ get_latest_record fs2 uid = .ok (some (newRecord now w x y z))
      ∧ subscriptS (newRecord now w x y z) "weight" = .ok (.num w)
      ∧ subscriptS (newRecord now w x y z) "waist" = .ok (.num x)
      ∧ subscriptS (newRecord now w x y z) "hips" = .ok (.num y)
      ∧ subscriptS (newRecord now w x y z) "chest" = .ok (.num z) := by
  refine ⟨updateFS fs (get_user_file_path uid)
      (.json (appendedDoc (fs (get_user_file_path uid)) (newRecord now w x y z))),
    ?_, ?_, rfl, rfl, rfl, rfl⟩
  · rw [add_record_eq fs uid now w x y z .writeOk hdoc]
    rfl
  · unfold get_latest_record load_user_data
    rw [updateFS_same, loadDoc_json, eBind_ok, subscriptS_appendedDoc hdoc _, eBind_ok]
    rw [if_pos (truthy_arr_nonempty _ (by simp))]
    rw [(by norm_num : -(1 : Int) = -((1 : Nat) : Int)),
      pyGet_neg _ 1 (by omega) (by simp), eBind_ok]
    have hl : (storedRecords (fs (get_user_file_path uid))
        ++ [newRecord now w x y z]).length - 1
        = (storedRecords (fs (get_user_file_path uid))).length := by
      simp
    rw [hl, getD_concat]
    rfl

/-- C3 witness: the statement at a fresh store and the concrete input
`70.5 80 95 90`. -/
theorem c3_witness :
    ∃ fs2 : FS,
      add_record (fun _ => DocContent.absent) 7 1000 (70.5 : Rat) 80 95 90 .writeOk
          = .ok (fs2, true)
      ∧ get_latest_record fs2 7 = .ok (some (newRecord 1000 (70.5 : Rat) 80 95 90))
      ∧ subscriptS (newRecord 1000 (70.5 : Rat) 80 95 90) "weight"
          = .ok (.num (70.5 : Rat))
      ∧ subscriptS (newRecord 1000 (70.5 : Rat) 80 95 90) "waist" = .ok (.num 80)
      ∧ subscriptS (newRecord 1000 (70.5 : Rat) 80 95 90) "hips" = .ok (.num 95)
      ∧ subscriptS (newRecord 1000 (70.5 : Rat) 80 95 90) "chest" = .ok (.num 90) :=
  c3_append_then_latest (fun _ => DocContent.absent) 7 1000 (70.5 : Rat) 80 95 90 rfl
    (by norm_num) (by norm_num) (by norm_num) (by norm_num)

/-- C4: over a well-formed window of 12 records with the display cap of 10,
the summary displays exactly the last 10 records in original order, notes
that 10 of 12 are shown (2 omitted), and computes each per-field delta
between the first and last record of the full 12-record window; an empty
window produces no summary, and a one-record window shows that record with
no deltas. -/
theorem c4_window_summary (rs : List JsonVal) (h12 : rs.length = 12)
    (hwf : ∀ r ∈ rs, wfFullRec r = true) :
    show_history_summary rs
      = .ok (some ⟨rs.drop 2,
          some (fieldQ (rs.getD 11 JsonVal.null) "weight"
                  - fieldQ (rs.getD 0 JsonVal.null) "weight",
                fieldQ (rs.getD 11 JsonVal.null) "waist"
                  - fieldQ (rs.getD 0 JsonVal.null) "waist",
                fieldQ (rs.getD 11 JsonVal.null) "hips"
                  - fieldQ (rs.getD 0 JsonVal.null) "hips",
                fieldQ (rs.getD 11 JsonVal.null) "chest"
                  - fieldQ (rs.getD 0 JsonVal.null) "chest"),
          some (10, 12)⟩)
    ∧ rs.length - (rs.drop 2).length = 2
    ∧ show_history_summary ([] : List JsonVal) = .ok none
    ∧ ∀ r : JsonVal, wfFullRec r = true →
        show_history_summary [r] = .ok (some ⟨[r], none, none⟩) := by
  refine ⟨?_, ?_, rfl, fun r hr => show_history_summary_one r hr⟩
  · have hbig := show_history_summary_big rs (by omega) hwf
    rw [h12] at hbig
    simp only [(by norm_num : (12 : Nat) - 10 = 2), (by norm_num : (12 : Nat) - 1 = 11)]
      at hbig
    exact hbig
  · simp [h12]

/-- C4 witness: the 12-record part of the statement at a concrete window. -/
theorem c4_witness :
    show_history_summary (List.replicate 12 (newRecord 5 70 80 95 90))
      = .ok (some ⟨(List.replicate 12 (newRecord 5 70 80 95 90)).drop 2,
          some (fieldQ ((List.replicate 12 (newRecord 5 70 80 95 90)).getD 11
                    JsonVal.null) "weight"
                  - fieldQ ((List.replicate 12 (newRecord 5 70 80 95 90)).getD 0
                    JsonVal.null) "weight",
                fieldQ ((List.replicate 12 (newRecord 5 70 80 95 90)).getD 11
                    JsonVal.null) "waist"
                  - fieldQ ((List.replicate 12 (newRecord 5 70 80 95 90)).getD 0
                    JsonVal.null) "waist",
                fieldQ ((List.replicate 12 (newRecord 5 70 80 95 90)).getD 11
                    JsonVal.null) "hips"
                  - fieldQ ((List.replicate 12 (newRecord 5 70 80 95 90)).getD 0
                    JsonVal.null) "hips",
                fieldQ ((List.replicate 12 (newRecord 5 70 80 95 90)).getD 11
                    JsonVal.null) "chest"
                  - fieldQ ((List.replicate 12 (newRecord 5 70 80 95 90)).getD 0
                    JsonVal.null) "chest"),
          some (10, 12)⟩) :=
  (c4_window_summary (List.replicate 12 (newRecord 5 70 80 95 90)) (by simp)
    (fun r hr => by
      rw [List.eq_of_mem_replicate hr]
      exact wfFullRec_newRecord 5 70 80 95 90)).1

/-- C5: on a well-formed stored history, `get_records_by_period` returns
exactly the stored records whose timestamp is at least `now` minus the
window, in original order (a filter of the stored sequence), and the
all-time sentinel `-1` in `show_history_period` returns the full stored
sequence unfiltered. -/
theorem c5_in_window (fs : FS) (uid : Nat) (days : Int) (now : Nat)
    (h : wfDocWith wfRecDate (fs (get_user_file_path uid)) = true) :
    get_records_by_period fs uid days now
      = .ok ((storedRecords (fs (get_user_file_path uid))).filter fun r =>
          decide ((now : Int) - days * 86400 ≤ (recDate r : Int)))
    ∧ show_history_period_records fs uid (-1) now
        = .ok (.arr (storedRecords (fs (get_user_file_path uid)))) := by
  obtain ⟨h1, h2, _⟩ := wfDocWith_elim h
  refine ⟨get_records_by_period_eq fs uid days now h, ?_⟩
  unfold show_history_period_records load_user_data
  rw [if_pos (rfl : (-1 : Int) = -1), h1, eBind_ok]
  exact h2

/-- C5 witness: the statement at a concrete empty store. -/
theorem c5_witness :
    get_records_by_period (fun _ => DocContent.absent) 3 7 100
      = .ok ((storedRecords ((fun _ => DocContent.absent) (get_user_file_path 3))).filter
          fun r => decide ((100 : Int) - 7 * 86400 ≤ (recDate r : Int)))
    ∧ show_history_period_records (fun _ => DocContent.absent) 3 (-1) 100
        = .ok (.arr (storedRecords ((fun _ => DocContent.absent) (get_user_file_path 3)))) :=
  c5_in_window (fun _ => DocContent.absent) 3 7 100 rfl

/-- C6: for every pair of well-formed records, the progress computation
produces, for each of the four measurement fields, the formatted signed
delta of exactly `latest.field - previous.field`; a zero delta is rendered
as the distinguished no-change result; and when no previous record exists
(a one-record history) the progress output carries no comparison. -/
theorem c6_progress_deltas :
    (∀ l p2 : JsonVal, wfFullRec l = true → wfFullRec p2 = true →
      computeChanges l p2
        = .ok (format_change (fieldQ l "weight" - fieldQ p2 "weight"),
            format_change (fieldQ l "waist" - fieldQ p2 "waist"),
            format_change (fieldQ l "hips" - fieldQ p2 "hips"),
            format_change (fieldQ l "chest" - fieldQ p2 "chest")))
    ∧ format_change 0 = .noChange
    ∧ ∀ (fs : FS) (uid : Nat) (l : JsonVal),
        wfDocWith wfFullRec (fs (get_user_file_path uid)) = true →
        storedRecords (fs (get_user_file_path uid)) = [l] →
        show_progress_model fs uid = .ok (.result l none) := by
  refine ⟨fun l p2 hl hp => computeChanges_eq hl hp, rfl, ?_⟩
  intro fs uid l hdoc hone
  have hl : wfFullRec l = true :=
    (wfDocWith_elim hdoc).2.2 l (by rw [hone]; exact List.mem_singleton_self l)
  unfold show_progress_model
  rw [get_latest_record_eq fs uid hdoc, hone,
    (by simp : ([l] : List JsonVal).getLast? = some l), eBind_ok,
    get_previous_record_eq fs uid hdoc, hone]
  simp only [List.length_singleton]
  rw [if_neg (by omega : ¬ 2 ≤ 1), eBind_ok]
  rw [wfFullRec_truthy hl]
  simp only [Bool.true_eq_false, if_false]
  rw [readRecordView_ok hl, eBind_ok]
  rfl

/-- C6 witness: the pair part of the statement at the concrete scenario of
the specification (69, 79, 95, 89 after 70.5, 80, 95, 90). -/
theorem c6_witness :
    computeChanges (newRecord 2 69 79 95 89) (newRecord 1 (70.5 : Rat) 80 95 90)
      = .ok (format_change (fieldQ (newRecord 2 69 79 95 89) "weight"
                - fieldQ (newRecord 1 (70.5 : Rat) 80 95 90) "weight"),
          format_change (fieldQ (newRecord 2 69 79 95 89) "waist"
                - fieldQ (newRecord 1 (70.5 : Rat) 80 95 90) "waist"),
          format_change (fieldQ (newRecord 2 69 79 95 89) "hips"
                - fieldQ (newRecord 1 (70.5 : Rat) 80 95 90) "hips"),
          format_change (fieldQ (newRecord 2 69 79 95 89) "chest"
                - fieldQ (newRecord 1 (70.5 : Rat) 80 95 90) "chest")) :=
  c6_progress_deltas.1 (newRecord 2 69 79 95 89) (newRecord 1 (70.5 : Rat) 80 95 90)
    (wfFullRec_newRecord 2 69 79 95 89) (wfFullRec_newRecord 1 (70.5 : Rat) 80 95 90)

/-- C7 counterexample: a persisted file whose bytes are not valid UTF-8 is
corrupt content on which `load_user_data` raises (the `UnicodeDecodeError`
from reading the file is caught by neither of the two handled exception
classes) instead of returning the empty history. -/
theorem c7_counterexample :
    load_user_data (fun _ => DocContent.invalidUtf8) 1 = .error .unicodeDecodeError
    ∧ load_user_data (fun _ => DocContent.invalidUtf8) 1 ≠ .ok emptyHistory :=
  ⟨rfl, fun h => Except.noConfusion h⟩

/-- C7 (amended): `load_user_data` returns the empty history when the user
file is absent, unreadable (I/O error), or holds text that is not valid
JSON; but content that does not decode as UTF-8 raises an uncaught
`UnicodeDecodeError`, and any valid JSON value is returned as parsed even
when it is not history-shaped. -/
theorem c7_load_soft_failure (fs : FS) (uid : Nat) :
    ((fs (get_user_file_path uid) = .absent
        ∨ fs (get_user_file_path uid) = .unreadable
        ∨ fs (get_user_file_path uid) = .notJson) →
      load_user_data fs uid = .ok emptyHistory)
    ∧ (fs (get_user_file_path uid) = .invalidUtf8 →
        load_user_data fs uid = .error .unicodeDecodeError)
    ∧ ∀ v : JsonVal, fs (get_user_file_path uid) = .json v →
        load_user_data fs uid = .ok v := by
  unfold load_user_data
  refine ⟨?_, ?_, ?_⟩
  · rintro (h | h | h) <;> rw [h] <;> rfl
  · intro h
    rw [h]
    rfl
  · intro v h
    rw [h]
    rfl

/-- C7 witness: the soft-failure branch at a concrete non-JSON file. -/
theorem c7_witness :
    load_user_data (fun _ => DocContent.notJson) 2 = .ok emptyHistory :=
  (c7_load_soft_failure (fun _ => DocContent.notJson) 2).1 (Or.inr (Or.inr rfl))

/-- C8: on a well-formed stored history, a successful `add_record` writes back
exactly the previous stored sequence of records with one new record
appended at the end: no stored record is dropped, changed, or reordered. -/
theorem c8_append_only (fs : FS) (uid now : Nat) (w x y z : Rat)
    (hdoc : wfDocWith wfRecDate (fs (get_user_file_path uid)) = true) :
    ∃ fs2 : FS,
      add_record fs uid now w x y z .writeOk = .ok (fs2, true)
      ∧ storedRecords (fs2 (get_user_file_path uid))
          = storedRecords (fs (get_user_file_path uid)) ++ [newRecord now w x y z] := by
  refine ⟨updateFS fs (get_user_file_path uid)
      (.json (appendedDoc (fs (get_user_file_path uid)) (newRecord now w x y z))),
    ?_, ?_⟩
  · rw [add_record_eq fs uid now w x y z .writeOk hdoc]
    rfl
  · rw [updateFS_same]
    exact storedRecords_appendedDoc hdoc _

/-- C8 witness: the statement at a fresh store. -/
theorem c8_witness :
    ∃ fs2 : FS,
      add_record (fun _ => DocContent.absent) 4 9 70 80 95 90 .writeOk = .ok (fs2, true)
      ∧ storedRecords (fs2 (get_user_file_path 4))
          = storedRecords ((fun _ => DocContent.absent) (get_user_file_path 4))
            ++ [newRecord 9 70 80 95 90] :=
  c8_append_only (fun _ => DocContent.absent) 4 9 70 80 95 90 rfl

/-- C9: store operations for one user never touch another user's file.
For distinct user ids, `save_user_data` for the first user leaves the
second user's persisted document unchanged, and so does any completed
`add_record`; the two histories are kept under distinct file names because
the decimal file naming is injective in the user id. -/
theorem c9_user_isolation (a b : Nat) (hab : a ≠ b) (fs : FS) (data : JsonVal)
    (wb : WriteBehavior) (now : Nat) (w x y z : Rat) :
    (save_user_data fs a data wb).1 (get_user_file_path b) = fs (get_user_file_path b)
    ∧ ∀ (fs2 : FS) (r : Bool), add_record fs a now w x y z wb = .ok (fs2, r) →
        fs2 (get_user_file_path b) = fs (get_user_file_path b) := by
  have hne : get_user_file_path b ≠ get_user_file_path a :=
    get_user_file_path_ne b a fun hba => hab hba.symm
  have hsave : ∀ d : JsonVal,
      (save_user_data fs a d wb).1 (get_user_file_path b) = fs (get_user_file_path b) := by
    intro d
    cases wb with
    | writeOk => exact updateFS_other fs _ _ _ hne
    | failOnOpen => rfl
    | failDuringWrite => exact updateFS_other fs _ _ _ hne
  refine ⟨hsave data, ?_⟩
  intro fs2 r hadd
  unfold add_record load_user_data at hadd
  cases hload : loadDoc (fs (get_user_file_path a)) with
  | error e =>
    rw [hload, eBind_error] at hadd
    exact Except.noConfusion hadd
  | ok data0 =>
    rw [hload, eBind_ok] at hadd
    cases hsub : subscriptS data0 "records" with
    | error e =>
      rw [hsub, eBind_error] at hadd
      exact Except.noConfusion hadd
    | ok recs =>
      rw [hsub, eBind_ok] at hadd
      cases recs with
      | arr xs =>
        have hp2 : save_user_data fs a
            (objSet data0 "records" (.arr (xs ++ [newRecord now w x y z]))) wb
            = (fs2, r) := Except.ok.inj hadd
        have hfst : (save_user_data fs a
            (objSet data0 "records" (.arr (xs ++ [newRecord now w x y z]))) wb).1 = fs2 :=
          congrArg Prod.fst hp2
        rw [← hfst]
        exact hsave _
      | null => exact Except.noConfusion hadd
      | bool b2 => exact Except.noConfusion hadd
      | num q => exact Except.noConfusion hadd
      | str s => exact Except.noConfusion hadd
      | obj kvs => exact Except.noConfusion hadd

/-- C9 witness: the save part of the statement at users 1 and 2. -/
theorem c9_witness :
    (save_user_data (fun _ => DocContent.absent) 1 emptyHistory .writeOk).1
        (get_user_file_path 2)
      = (fun _ => DocContent.absent) (get_user_file_path 2) :=
  (c9_user_isolation 1 2 (by omega) (fun _ => DocContent.absent) emptyHistory
    .writeOk 0 70 80 95 90).1

/-- C10 counterexample: with admin-only mode enabled but open access also
enabled (both are independent configuration flags), the first checked user
is granted access yet never recorded as admin, and a later check for a
different user id is also granted, contradicting the claim that subsequent
checks succeed only for the first caller. -/
theorem c10_counterexample :
    (is_user_authorized ⟨true, true, [], []⟩ none 1 none).1 = true
    ∧ (is_user_authorized ⟨true, true, [], []⟩ none 1 none).2 = none
    ∧ (is_user_authorized ⟨true, true, [], []⟩
        (is_user_authorized ⟨true, true, [], []⟩ none 1 none).2 2 none).1 = true :=
  ⟨rfl, rfl, rfl⟩

/-- C10 (amended): when open access is disabled, admin-only mode is enabled,
and no admin is configured, the first user checked is granted access and
recorded as the admin; from then on the admin assignment never changes and
every subsequent check succeeds exactly for that first caller's id. -/
theorem c10_admin_first_caller (cfg : AuthConfig) (hopen : cfg.OPEN_ACCESS = false)
    (hadmin : cfg.ADMIN_ONLY_MODE = true) (u1 : Nat) (un1 : Option String) :
    is_user_authorized cfg none u1 un1 = (true, some u1)
    ∧ (∀ (a u : Nat) (un : Option String),
        is_user_authorized cfg (some a) u un = (decide (u = a), some a))
    ∧ ∀ checks : List (Nat × Option String),
        runAuth cfg (some u1) checks
          = (checks.map fun c => decide (c.1 = u1), some u1) := by
  have h2 : ∀ (a u : Nat) (un : Option String),
      is_user_authorized cfg (some a) u un = (decide (u = a), some a) := by
    intro a u un
    simp [is_user_authorized, hopen, hadmin]
  refine ⟨by simp [is_user_authorized, hopen, hadmin], h2, ?_⟩
  intro checks
  induction checks with
  | nil => rfl
  | cons c rest ih =>
    obtain ⟨u, un⟩ := c
    simp [runAuth, h2, ih]

/-- C10 witness: the first-caller part of the amended statement at a concrete
configuration. -/
theorem c10_witness :
    is_user_authorized ⟨false, true, [], []⟩ none 5 none = (true, some 5) :=
  (c10_admin_first_caller ⟨false, true, [], []⟩ rfl rfl 5 none).1

end BodyStat
